import Mathlib

/-!
Verification of the session/authentication subsystem of the odi_oae_server
repository: a shallow embedding of the Go source (auth service, Redis-backed
session and OTP caches, authorization middleware, session-metadata table and
the auth-adjacent HTTP handlers) together with proofs of the specification's
testable properties.
-/

namespace OdiOae

/-! ### Key-value cache model (internal/cache/redis.go)

The Redis client is modelled as a total key-value map from keys to stored
values paired with the TTL they were written with (Go `time.Duration`, in
nanoseconds).  Absence of a key models both "never set" and "TTL elapsed",
matching Redis semantics where `GET` on a missing or expired key returns the
`redis.Nil` error.  Network/availability failures of the cache are outside the
model: every operation completes. -/

/-- The state of the Redis store: each key is absent or holds a value and the
TTL it was set with. -/
def Store : Type := String → Option (String × Nat)

/-- Model of `Get` (redis.go): `none` is the `redis.Nil` error for an absent
(or expired, hence absent) key. -/
def redisGet (st : Store) (key : String) : Option String :=
  (st key).map Prod.fst

/-- Model of `Set` (redis.go): stores `value` under `key` with `expiration`. -/
def redisSet (st : Store) (key value : String) (expiration : Nat) : Store :=
  fun k => if k = key then some (value, expiration) else st k

/-- Model of `Delete` (redis.go): `DEL` removes the key and returns the number
of keys removed; it never errors on an absent key. -/
def redisDel (st : Store) (key : String) : Store × Nat :=
  (fun k => if k = key then none else st k,
   if (st key).isSome then 1 else 0)

/-! ### JSON codec (model of Go `encoding/json` for the session payload)

`auth.Session` is serialized by `json.Marshal` and read back by
`json.Unmarshal` (internal/cache/session.go).  The encoder below reproduces
Go's output byte-for-byte for this struct: members in struct order, no
whitespace, and `encoding/json`'s string escaping (`\"`, `\\`, `\n`, `\r`,
`\t`, `\u00XX` with lowercase hex for other control characters and for the
HTML-unsafe characters, and the analogous escapes for the two Unicode line
separators U+2028 and U+2029).  The decoder models `json.Unmarshal` into a `Session`
restricted to the fragment it can receive from this program: a flat,
whitespace-free object whose values are strings or integers, unknown members
skipped, a member of the wrong type rejected, later duplicate members
overwriting earlier ones. -/

/-- Session payload written to the cache (auth.Session in the auth package):
json tags `user_id`, `username`, `email`, `role`. -/
structure Session where
  userId : Int
  username : String
  email : String
  role : String
deriving DecidableEq, Repr

/-- The zero value `json.Unmarshal` starts from (`var session Session`). -/
def session0 : Session := ⟨0, "", "", ""⟩

/-- Lowercase hex digit character, as in the encoder's `"0123456789abcdef"`. -/
def hexDig (k : Nat) : Char :=
  if k < 10 then Char.ofNat (48 + k) else Char.ofNat (87 + k)

/-- Decimal digit character for `k < 10`. -/
def digitChar (k : Nat) : Char := Char.ofNat (48 + k)

/-- Go `encoding/json` escaping of one character (appendString with the
default HTML escaping). -/
def goEscChar (c : Char) : List Char :=
  if c = '"' then ['\\', '"']
  else if c = '\\' then ['\\', '\\']
  else if c = '\n' then ['\\', 'n']
  else if c = '\r' then ['\\', 'r']
  else if c = '\t' then ['\\', 't']
  else if c.toNat < 32 ∨ c = '<' ∨ c = '>' ∨ c = '&' then
    ['\\', 'u', '0', '0', hexDig (c.toNat / 16), hexDig (c.toNat % 16)]
  else if c.toNat = 0x2028 ∨ c.toNat = 0x2029 then
    ['\\', 'u', '2', '0', '2', hexDig (c.toNat % 16)]
  else [c]

/-- A whole character run, escaped. -/
def escRun (cs : List Char) : List Char := cs.flatMap goEscChar

/-- Decimal digits of `n`, most significant first (strconv.AppendUint). -/
def natChars (n : Nat) : List Char :=
  (if h : n < 10 then [] else natChars (n / 10)) ++ [digitChar (n % 10)]
decreasing_by exact Nat.div_lt_self (by omega) (by omega)

/-- Decimal rendering of a Go `int64` (strconv.AppendInt): optional minus sign
then the digits of the absolute value. -/
def intChars (i : Int) : List Char :=
  if i < 0 then '-' :: natChars i.natAbs else natChars i.natAbs

/-- A JSON string token: opening quote, escaped content, closing quote. -/
def strChars (v : String) : List Char := '"' :: (escRun v.data ++ ['"'])

/-- Output of `json.Marshal` on a `Session`, as a character list: the four
members in struct order with their json tags. -/
def encodeSessionL (s : Session) : List Char :=
  '{' :: '"' :: ('u' :: 's' :: 'e' :: 'r' :: '_' :: 'i' :: 'd' :: '"' :: ':' ::
    (intChars s.userId ++
    ',' :: '"' :: ('u' :: 's' :: 'e' :: 'r' :: 'n' :: 'a' :: 'm' :: 'e' :: '"' :: ':' ::
    (strChars s.username ++
    ',' :: '"' :: ('e' :: 'm' :: 'a' :: 'i' :: 'l' :: '"' :: ':' ::
    (strChars s.email ++
    ',' :: '"' :: ('r' :: 'o' :: 'l' :: 'e' :: '"' :: ':' ::
    (strChars s.role ++ ['}']))))))))

/-- Output of `json.Marshal` on a `Session`, as a `String`. -/
def encodeSession (s : Session) : String := String.mk (encodeSessionL s)

/-- Hex digit value accepted by the decoder (getu4): `0-9`, `a-f`, `A-F`. -/
def hexVal (c : Char) : Option Nat :=
  if 48 ≤ c.toNat ∧ c.toNat ≤ 57 then some (c.toNat - 48)
  else if 97 ≤ c.toNat ∧ c.toNat ≤ 102 then some (c.toNat - 87)
  else if 65 ≤ c.toNat ∧ c.toNat ≤ 70 then some (c.toNat - 55)
  else none

/-- Value of a four-digit `\uXXXX` escape. -/
def hex4 (a b c d : Char) : Option Nat := do
  let va ← hexVal a
  let vb ← hexVal b
  let vc ← hexVal c
  let vd ← hexVal d
  pure (((va * 16 + vb) * 16 + vc) * 16 + vd)

/-- Single-character unescapes accepted by the decoder (unquoteBytes). -/
def goUnescChar (e : Char) : Option Char :=
  if e = '"' then some '"'
  else if e = '\\' then some '\\'
  else if e = '/' then some '/'
  else if e = 'b' then some (Char.ofNat 8)
  else if e = 'f' then some (Char.ofNat 12)
  else if e = 'n' then some '\n'
  else if e = 'r' then some '\r'
  else if e = 't' then some '\t'
  else none

/-- Parse the body of a JSON string after its opening quote, undoing the
escaping; returns the content and the remaining input.  Surrogate-pair
`\uXXXX` escapes are outside the model: the encoder never emits them. -/
def parseJString : List Char → Option (List Char × List Char)
  | [] => none
  | c :: rest =>
    if c = '"' then some ([], rest)
    else if c = '\\' then
      match rest with
      | [] => none
      | e :: rest2 =>
        if e = 'u' then
          match rest2 with
          | a :: b :: c2 :: d :: rest3 =>
            (hex4 a b c2 d).bind fun v =>
              (parseJString rest3).map fun p => (Char.ofNat v :: p.1, p.2)
          | _ => none
        else
          (goUnescChar e).bind fun ch =>
            (parseJString rest2).map fun p => (ch :: p.1, p.2)
    else
      (parseJString rest).map fun p => (c :: p.1, p.2)

/-- Decimal digit test on a character. -/
def digitB (c : Char) : Bool := 48 ≤ c.toNat && c.toNat ≤ 57

/-- Longest leading run of decimal digits, and the rest of the input. -/
def takeDigs : List Char → List Char × List Char
  | [] => ([], [])
  | c :: rest =>
    if digitB c then
      let p := takeDigs rest
      (c :: p.1, p.2)
    else ([], c :: rest)

/-- Numeric value of a digit run. -/
def digsVal (ds : List Char) : Nat :=
  ds.foldl (fun acc c => acc * 10 + (c.toNat - 48)) 0

/-- Parse a nonempty run of decimal digits as a natural number. -/
def parseJNat (cs : List Char) : Option (Nat × List Char) :=
  match takeDigs cs with
  | ([], _) => none
  | (ds, rest) => some (digsVal ds, rest)

/-- A member value in the JSON fragment this program exchanges: a string or an
integer. -/
inductive JVal where
  | jstr (cs : List Char)
  | jint (i : Int)
deriving DecidableEq, Repr

/-- Parse one member value: a quoted string, or a decimal integer with an
optional minus sign. -/
def parseJValue : List Char → Option (JVal × List Char)
  | [] => none
  | c :: rest =>
    if c = '"' then
      (parseJString rest).map fun p => (JVal.jstr p.1, p.2)
    else if c = '-' then
      (parseJNat rest).map fun p => (JVal.jint (-(p.1 : Int)), p.2)
    else
      (parseJNat (c :: rest)).map fun p => (JVal.jint (p.1 : Int), p.2)

/-- Key lists of the four `Session` members (their json tags). -/
def keyUserId : List Char := ['u', 's', 'e', 'r', '_', 'i', 'd']

/-- Key list of the `username` member. -/
def keyUsername : List Char := ['u', 's', 'e', 'r', 'n', 'a', 'm', 'e']

/-- Key list of the `email` member. -/
def keyEmail : List Char := ['e', 'm', 'a', 'i', 'l']

/-- Key list of the `role` member. -/
def keyRole : List Char := ['r', 'o', 'l', 'e']

/-- Store a decoded member into the struct, as `json.Unmarshal` does: a known
key updates its field (a value of the wrong type is an error), an unknown key
is skipped.  Go's additional case-insensitive field matching never fires on
the input this program produces and is outside the model. -/
def applyMember (acc : Session) (k : List Char) (v : JVal) : Option Session :=
  if k = keyUserId then
    match v with
    | JVal.jint i => some { acc with userId := i }
    | _ => none
  else if k = keyUsername then
    match v with
    | JVal.jstr cs => some { acc with username := String.mk cs }
    | _ => none
  else if k = keyEmail then
    match v with
    | JVal.jstr cs => some { acc with email := String.mk cs }
    | _ => none
  else if k = keyRole then
    match v with
    | JVal.jstr cs => some { acc with role := String.mk cs }
    | _ => none
  else some acc

/-- Parse the members of a flat object, starting right after the opening
quote of the first key; `fuel` bounds the number of members. -/
def parseJMembers : Nat → Session → List Char → Option (Session × List Char)
  | 0, _, _ => none
  | fuel + 1, acc, cs =>
    (parseJString cs).bind fun pk =>
      match pk.2 with
      | ':' :: r2 =>
        (parseJValue r2).bind fun pv =>
          (applyMember acc pk.1 pv.1).bind fun acc2 =>
            match pv.2 with
            | ',' :: '"' :: r4 => parseJMembers fuel acc2 r4
            | '}' :: r4 => some (acc2, r4)
            | _ => none
      | _ => none

/-- Model of `json.Unmarshal(data, &session)` on the JSON fragment this
program produces: a whitespace-free flat object with no trailing input. -/
def decodeSessionL (cs : List Char) : Option Session :=
  match cs with
  | c1 :: c2 :: rest =>
    if c1 = '{' then
      if c2 = '}' then (if rest.isEmpty then some session0 else none)
      else if c2 = '"' then
        (parseJMembers cs.length session0 rest).bind fun p =>
          if p.2.isEmpty then some p.1 else none
      else none
    else none
  | _ => none

/-- String-level decode. -/
def decodeSession (s : String) : Option Session := decodeSessionL s.data

/-! ### Session cache layer (internal/cache/session.go) -/

/-- Cache key of a session (sessionPrefix ++ id). -/
def sessionKey (sid : String) : String := "session:" ++ sid

/-- The 24-hour default TTL (session.go defaultTTL), in nanoseconds. -/
def defaultSessionTTL : Nat := 86400000000000

/-- Model of `SetSession`: marshal the payload and store it under the session
key; a zero TTL falls back to the default. -/
def setSession (st : Store) (sid : String) (data : Session) (ttl : Nat) : Store :=
  redisSet st (sessionKey sid) (encodeSession data)
    (if ttl = 0 then defaultSessionTTL else ttl)

/-- Model of cache `GetSession`: read and unmarshal. -/
def getSessionCache (st : Store) (sid : String) : Option Session :=
  (redisGet st (sessionKey sid)).bind decodeSession

/-- Model of cache `DeleteSession`. -/
def deleteSessionCache (st : Store) (sid : String) : Store :=
  (redisDel st (sessionKey sid)).1

/-! ### OTP cache layer (internal/cache/otp.go) -/

/-- Cache key of a one-time code (otpPrefix ++ email). -/
def otpKey (email : String) : String := "otp:" ++ email

/-- The 5-minute OTP TTL (otp.go otpTTL), in nanoseconds. -/
def otpCacheTTL : Nat := 300000000000

/-- Model of `SetOTP`. -/
def setOTP (st : Store) (email otp : String) : Store :=
  redisSet st (otpKey email) otp otpCacheTTL

/-- Model of `GetOTP`: `none` is the `redis.Nil` error of an absent or
TTL-expired entry. -/
def getOTP (st : Store) (email : String) : Option String :=
  redisGet st (otpKey email)

/-- Model of `DeleteOTP`. -/
def deleteOTP (st : Store) (email : String) : Store :=
  (redisDel st (otpKey email)).1

/-- Model of cache `VerifyOTP`: `GetOTP` then a plain string comparison;
`none` models the error return when the entry is absent/expired. -/
def verifyOTPCache (st : Store) (email otp : String) : Option Bool :=
  (getOTP st email).map fun stored => stored == otp

/-! ### Authentication service (internal/auth/auth.go)

The users table is a list of rows; `bcrypt.CompareHashAndPassword` is an
opaque library call, modelled as a boolean-valued parameter `bcheck` since the
service only branches on whether it succeeds.  The random token
(`uuid.New().String()`) is likewise a parameter.  The relational store and the
cache are modelled as always available: transient store failures, which
`Login` propagates unchanged, are outside the model. -/

/-- A row of the `users` table, as scanned by GetUserByUsernameOrEmail. -/
structure User where
  id : Int
  username : String
  email : String
  passwordHash : String
  role : String
  phone : Option String
deriving DecidableEq, Repr

/-- Error values of the auth package (ErrInvalidCredentials, ErrUserNotFound). -/
inductive AuthErr where
  | invalidCredentials
  | userNotFound
deriving DecidableEq, Repr

/-- Model of `GetUserByUsernameOrEmail`: the first row satisfying
`username = $1 OR email = $1` (LIMIT 1). -/
def getUserByUsernameOrEmail (users : List User) (identifier : String) : Option User :=
  users.find? fun u => u.username == identifier || u.email == identifier

/-- Model of `auth.Login`: look the user up (an absent user becomes
`InvalidCredentials`), verify the password (failure becomes
`InvalidCredentials`), then build the session payload from the user row and
write it to the cache under the fresh token with a 24-hour TTL. -/
def loginSvc (bcheck : String → String → Bool) (users : List User) (st : Store)
    (identifier password newToken : String) :
    Except AuthErr (Session × String × Store) :=
  match getUserByUsernameOrEmail users identifier with
  | none => Except.error AuthErr.invalidCredentials
  | some user =>
    if bcheck user.passwordHash password then
      let session : Session := ⟨user.id, user.username, user.email, user.role⟩
      Except.ok (session, newToken, setSession st newToken session defaultSessionTTL)
    else Except.error AuthErr.invalidCredentials

/-- Model of `auth.GetSession`. -/
def getSessionSvc (st : Store) (sid : String) : Option Session :=
  getSessionCache st sid

/-- Model of `auth.Logout`: delete the cache entry.  `DEL` cannot fail on an
absent key, so the operation always succeeds. -/
def logoutSvc (st : Store) (sid : String) : Store :=
  deleteSessionCache st sid

/-! ### HTTP layer -/

/-- A JSON response: status code and the body's key/value pairs, with
non-string values rendered as strings. -/
structure HResp where
  status : Nat
  body : List (String × String)
deriving DecidableEq, Repr

/-- Model of the `Login` handler (handlers/auth.go) after body parsing: input
validation, `auth.Login`, error mapping, and on success the `session_id`
cookie plus the response body.  The best-effort session-metadata insert and
the cookie attribute configuration do not affect the response mapping and are
modelled elsewhere. -/
def loginHandler (bcheck : String → String → Bool) (users : List User) (st : Store)
    (identifier password newToken reqId : String) :
    Store × HResp × Option (String × String) :=
  if identifier = "" ∨ password = "" then
    (st, ⟨400, [("error", "identifier and password are required")]⟩, none)
  else
    match loginSvc bcheck users st identifier password newToken with
    | Except.error AuthErr.invalidCredentials =>
      (st, ⟨401, [("error", "invalid credentials")]⟩, none)
    | Except.error _ =>
      (st, ⟨500, [("error", "internal server error")]⟩, none)
    | Except.ok (session, sid, st2) =>
      (st2,
       ⟨200, [("message", "Login successful"),
              ("session", encodeSession session),
              ("access_token", sid),
              ("request_id", reqId)]⟩,
       some ("session_id", sid))

/-! ### Authorization middleware (internal/middleware/auth.go)

`strings.EqualFold` performs simple Unicode case folding; roles in this system
are ASCII, and the fold is modelled on the ASCII range. -/

/-- ASCII lower-casing of one character. -/
def foldChar (c : Char) : Char :=
  if 65 ≤ c.toNat ∧ c.toNat ≤ 90 then Char.ofNat (c.toNat + 32) else c

/-- Model of `strings.EqualFold` on the ASCII range. -/
def eqFold (a b : String) : Bool :=
  a.data.map foldChar == b.data.map foldChar

/-- Outcome of a middleware run: pass the request on with the resolved
session, or halt with a response. -/
inductive MWOutcome where
  | next (s : Session)
  | halt (resp : HResp)
deriving DecidableEq, Repr

/-- Model of `RequireRole`: an empty cookie or a token that does not resolve
to a cached session halts with 401; a resolved session whose role fold-equals
some allow-list entry passes; otherwise 403.  The fire-and-forget last-active
touch does not affect the outcome and is omitted. -/
def requireRole (st : Store) (cookieSessionId : String) (roles : List String) :
    MWOutcome :=
  if cookieSessionId = "" then MWOutcome.halt ⟨401, [("error", "unauthorized")]⟩
  else
    match getSessionSvc st cookieSessionId with
    | none => MWOutcome.halt ⟨401, [("error", "unauthorized")]⟩
    | some session =>
      if roles.any (fun r => eqFold session.role r) then MWOutcome.next session
      else MWOutcome.halt ⟨403, [("error", "forbidden")]⟩


/-! ### OTP audit table and handlers (internal/database/otp.go, handlers) -/

/-- A row of the `otp_codes` audit table. -/
structure OTPRow where
  id : Nat
  email : String
  code : String
  userId : Option Int
  purpose : String
  verified : Bool
  expiresAt : Nat
  verifiedAt : Option Nat
deriving DecidableEq, Repr

/-- The guard of the conditional UPDATE in `VerifyOTPFromDB`: same email and
code, not yet verified, not expired. -/
def otpUpdGuard (now : Nat) (email otp : String) (r : OTPRow) : Bool :=
  r.email == email && r.code == otp && !r.verified && decide (now < r.expiresAt)

/-- Model of `VerifyOTPFromDB`: one conditional UPDATE setting the verified
flag and timestamp on every row matching the guard; the RETURNING clause makes
the result `true` exactly when some row matched. -/
def verifyOTPFromDB (db : List OTPRow) (now : Nat) (email otp : String) :
    List OTPRow × Bool :=
  (db.map fun r =>
     if otpUpdGuard now email otp r
     then { r with verified := true, verifiedAt := some now } else r,
   db.any (otpUpdGuard now email otp))

/-- Model of `StoreOTP`: INSERT one audit row with a 5-minute expiry. -/
def storeOTPRow (db : List OTPRow) (newId : Nat) (now : Nat) (email otp : String)
    (userId : Option Int) (purpose : String) : List OTPRow :=
  db ++ [⟨newId, email, otp, userId, purpose, false, now + otpCacheTTL, none⟩]

/-- Combined mutable state of the OTP flow: the cache and the audit table. -/
structure OTPState where
  cache : Store
  db : List OTPRow

/-- Model of the `VerifyOTP` handler: validate, check the cache entry (an
absent/expired entry surfaces as a cache error and becomes 500), and on a
match update the audit row, delete the cache entry and report success; on a
mismatch report 400 without touching any state. -/
def verifyOTPHandler (st : OTPState) (now : Nat) (email otp reqId : String) :
    OTPState × HResp :=
  if email = "" ∨ otp = "" then
    (st, ⟨400, [("error", "email and OTP are required")]⟩)
  else
    match verifyOTPCache st.cache email otp with
    | none => (st, ⟨500, [("error", "failed to verify OTP")]⟩)
    | some valid =>
      if valid then
        (⟨deleteOTP st.cache email, (verifyOTPFromDB st.db now email otp).1⟩,
         ⟨200, [("valid", "true"), ("message", "OTP verified successfully"),
                ("request_id", reqId)]⟩)
      else
        (st, ⟨400, [("valid", "false"), ("message", "Invalid OTP"),
                    ("request_id", reqId)]⟩)

/-- SMTP configuration snapshot (config package getters used by the email
package). -/
structure SMTPConfig where
  host : String
  username : String
  password : String
deriving DecidableEq, Repr

/-- Model of `email.IsSMTPConfigured`. -/
def isSMTPConfigured (cfg : SMTPConfig) : Bool :=
  !(cfg.host == "") && !(cfg.username == "") && !(cfg.password == "")

/-- Model of `email.SendOTPEmail`'s success: it fails immediately when SMTP is
not configured, and otherwise succeeds exactly when the network delivery
(`smtp.SendMail`, an environment parameter here) succeeds. -/
def sendOTPEmailOk (cfg : SMTPConfig) (deliveryOk : Bool) : Bool :=
  if cfg.host = "" ∨ cfg.username = "" ∨ cfg.password = "" then false
  else deliveryOk

/-- Model of the `SendOTP` handler: validate, require an existing account,
store the code in the cache (primary) and the audit table (best effort), then
attempt delivery.  A delivery failure turns into a 500 only when SMTP is not
configured; otherwise the request succeeds regardless. -/
def sendOTPHandler (users : List User) (st : OTPState) (cfg : SMTPConfig)
    (deliveryOk : Bool) (now newId : Nat) (reqEmail otp reqId : String) :
    OTPState × HResp :=
  if reqEmail = "" then (st, ⟨400, [("error", "email is required")]⟩)
  else
    match getUserByUsernameOrEmail users reqEmail with
    | none => (st, ⟨404, [("error", "user not found")]⟩)
    | some user =>
      let st2 : OTPState :=
        ⟨setOTP st.cache user.email otp,
         storeOTPRow st.db newId now user.email otp (some user.id) "password_change"⟩
      if sendOTPEmailOk cfg deliveryOk then
        (st2, ⟨200, [("message", "OTP sent successfully"), ("request_id", reqId)]⟩)
      else if !isSMTPConfigured cfg then
        (st2, ⟨500, [("error", "Email service not configured. Please configure SMTP settings in environment variables."),
                     ("hint", "Required: SMTP_HOST, SMTP_USERNAME, SMTP_PASSWORD. Optional: SMTP_PORT (default: 587), SMTP_FROM_EMAIL, SMTP_FROM_NAME")]⟩)
      else
        (st2, ⟨200, [("message", "OTP sent successfully"), ("request_id", reqId)]⟩)

/-! ### Session metadata table (internal/database/sessions.go) -/

/-- A row of the `sessions` metadata table. -/
structure SessRow where
  id : Nat
  userId : Int
  sessionId : String
  deviceInfo : Option String
  userAgent : Option String
  ipAddress : Option String
  location : Option String
  lastActive : Nat
  expiresAt : Nat
  createdAt : Nat
  loggedOutAt : Option Nat
deriving DecidableEq, Repr

/-- The WHERE clause of `GetUserSessions`: rows of the user that have not
expired and whose logout timestamp is null or still in the future. -/
def sessionRowLive (uid : Int) (now : Nat) (r : SessRow) : Bool :=
  r.userId == uid && decide (now < r.expiresAt) &&
    (match r.loggedOutAt with
     | none => true
     | some t => decide (now < t))

/-- Insert into a list sorted by descending `lastActive`. -/
def insertByLastActive (r : SessRow) : List SessRow → List SessRow
  | [] => [r]
  | x :: xs =>
    if x.lastActive ≤ r.lastActive then r :: x :: xs
    else x :: insertByLastActive r xs

/-- ORDER BY last_active DESC, as an insertion sort. -/
def sortByLastActive : List SessRow → List SessRow
  | [] => []
  | x :: xs => insertByLastActive x (sortByLastActive xs)

/-- Model of `GetUserSessions`: filter by the WHERE clause, order by
last-active descending, and compute the `is_current` column per row. -/
def getUserSessions (table : List SessRow) (uid : Int) (cur : String) (now : Nat) :
    List (SessRow × Bool) :=
  (sortByLastActive (table.filter (sessionRowLive uid now))).map
    fun r => (r, r.sessionId == cur)

/-- Model of `MarkUserSessionsLoggedOutExcept`: one UPDATE setting the logout
timestamp on every not-yet-logged-out row of the user other than the current
session. -/
def markUserSessionsLoggedOutExcept (table : List SessRow) (uid : Int)
    (cur : String) (now : Nat) : List SessRow :=
  table.map fun r =>
    if r.userId == uid && !(r.sessionId == cur) && r.loggedOutAt == none
    then { r with loggedOutAt := some now } else r

/-- Model of the `RevokeAllSessions` handler: read the caller's active rows,
mark the user's other rows logged out in the table, then delete from the cache
the token of each fetched row other than the current one. -/
def revokeAllSessionsHandler (cache : Store) (table : List SessRow) (uid : Int)
    (cur : String) (now : Nat) (reqId : String) :
    Store × List SessRow × HResp :=
  if cur = "" then (cache, table, ⟨401, [("error", "unauthorized")]⟩)
  else
    let dbSessions := getUserSessions table uid cur now
    let table2 := markUserSessionsLoggedOutExcept table uid cur now
    let cache2 := dbSessions.foldl
      (fun c rb => if rb.1.sessionId ≠ cur then logoutSvc c rb.1.sessionId else c)
      cache
    (cache2, table2,
     ⟨200, [("message", "All other sessions revoked successfully"),
            ("request_id", reqId)]⟩)


/-! ### User update handler (internal/handlers/users.go UpdateUser)

The model covers the request fields up to and including the guarded
`role`/`status`/`isActive` region, plus `name` and `phone` as representatives
of the remaining optional profile fields, which are appended to the update
list by the same unguarded pattern and cannot affect the role/status outcome.
`strings.ToLower` and `strings.TrimSpace` are modelled on ASCII, which covers
every comparison the handler makes ("superadmin" and the status keywords). -/

/-- ASCII model of `strings.ToLower`. -/
def asciiLower (s : String) : String := String.mk (s.data.map foldChar)

/-- ASCII whitespace test (space, tab, newline, carriage return). -/
def isSpaceB (c : Char) : Bool :=
  c == ' ' || c == '\t' || c == '\n' || c == Char.ofNat 13

/-- ASCII model of `strings.TrimSpace`. -/
def trimSpace (s : String) : String :=
  String.mk (((s.data.dropWhile isSpaceB).reverse.dropWhile isSpaceB).reverse)

/-- The optional fields of `UpdateUserRequest` covered by the model. -/
structure UpdateReq where
  email : Option String
  username : Option String
  password : Option String
  role : Option String
  isActive : Option Bool
  status : Option String
  name : Option String
  phone : Option String
deriving DecidableEq, Repr

/-- A request with no field set. -/
def emptyUpdateReq : UpdateReq := ⟨none, none, none, none, none, none, none, none⟩

/-- Outcome of the validation phase of `UpdateUser`: an early error response,
or the ordered list of column assignments the UPDATE will execute. -/
inductive UpdOutcome where
  | halt (resp : HResp)
  | exec (updates : List (String × String))
deriving DecidableEq, Repr

/-- The valid status values (the handler's validStatuses set). -/
def validStatusB (s : String) : Bool :=
  s == "active" || s == "inactive" || s == "expired" || s == "closed"

/-- Model of `UpdateUser`'s field-validation phase for an authenticated
caller, given the caller's session role and the target row's role:
builds the dynamic update list in source order and reproduces every early
`return` as a halt.  `hash` models `auth.HashPassword` (bcrypt at default
cost, which does not fail). -/
def updateUserGuard (hash : String → String) (sessionRole targetRole : String)
    (req : UpdateReq) : UpdOutcome :=
  let upd0 : List (String × String) := []
  let upd1 := match req.email with
    | some v => upd0 ++ [("email", v)]
    | none => upd0
  let upd2 := match req.username with
    | some v => upd1 ++ [("username", v)]
    | none => upd1
  let upd3 := match req.password with
    | some v => upd2 ++ [("password_hash", hash v)]
    | none => upd2
  let tailFields : List (String × String) → UpdOutcome := fun upd =>
    let upd5 := match req.name with
      | some v => upd ++ [("name", v)]
      | none => upd
    let upd6 := match req.phone with
      | some v => upd5 ++ [("phone", v)]
      | none => upd5
    UpdOutcome.exec upd6
  let statusStep : List (String × String) → UpdOutcome := fun upd =>
    match req.status with
    | some sv =>
      let statusValue := asciiLower (trimSpace sv)
      if !validStatusB statusValue then
        UpdOutcome.halt ⟨400,
          [("error", "invalid status. Must be one of: active, inactive, expired, closed")]⟩
      else if asciiLower targetRole = "superadmin" then
        UpdOutcome.halt ⟨403, [("error", "cannot change the status of SuperAdmin users")]⟩
      else tailFields (upd ++ [("status", statusValue)])
    | none =>
      match req.isActive with
      | some b =>
        if asciiLower targetRole = "superadmin" then
          UpdOutcome.halt ⟨403, [("error", "cannot change the status of SuperAdmin users")]⟩
        else tailFields (upd ++ [("status", if b then "active" else "inactive")])
      | none => tailFields upd
  match req.role with
  | some v =>
    if asciiLower targetRole = "superadmin" then
      UpdOutcome.halt ⟨403, [("error", "cannot change the role of SuperAdmin users")]⟩
    else if asciiLower (trimSpace v) = "superadmin" ∧ ¬asciiLower sessionRole = "superadmin" then
      UpdOutcome.halt ⟨403, [("error", "only SuperAdmin can promote users to SuperAdmin role")]⟩
    else statusStep (upd3 ++ [("role", v)])
  | none => statusStep upd3

/-! ### Library lemmas about the embedded operations -/

theorem redisDel_absent (st : Store) (key : String) (h : st key = none) :
    (redisDel st key).1 = st := by
  funext k
  simp only [redisDel]
  by_cases hk : k = key
  · simp [hk, h]
  · simp [hk]

/-! ### Codec round-trip: decoding inverts encoding -/

theorem digitChar_toNat (k : Nat) (h : k < 10) : (digitChar k).toNat = 48 + k := by
  interval_cases k <;> decide

theorem digitB_digitChar (k : Nat) (h : k < 10) : digitB (digitChar k) = true := by
  interval_cases k <;> decide

theorem natChars_digits (n : Nat) : ∀ c ∈ natChars n, digitB c = true := by
  induction n using Nat.strongRecOn with
  | _ n ih =>
    intro c hc
    rw [natChars] at hc
    rcases List.mem_append.mp hc with h | h
    · by_cases h10 : n < 10
      · simp [h10] at h
      · exact ih (n / 10) (Nat.div_lt_self (by omega) (by omega)) c (by simpa [h10] using h)
    · rw [List.mem_singleton] at h
      subst h
      exact digitB_digitChar _ (Nat.mod_lt _ (by omega))

theorem natChars_ne_nil (n : Nat) : natChars n ≠ [] := by
  rw [natChars]
  simp

theorem takeDigs_nondigit {c : Char} (rest : List Char) (h : digitB c = false) :
    takeDigs (c :: rest) = ([], c :: rest) := by
  simp [takeDigs, h]

theorem takeDigs_run (ds : List Char) (hds : ∀ c ∈ ds, digitB c = true)
    (rest : List Char) (hrest : takeDigs rest = ([], rest)) :
    takeDigs (ds ++ rest) = (ds, rest) := by
  induction ds with
  | nil => simpa using hrest
  | cons c ds ih =>
    have hc : digitB c = true := hds c (List.mem_cons_self _ _)
    have ih2 := ih (fun x hx => hds x (List.mem_cons_of_mem _ hx))
    simp only [List.cons_append, takeDigs, hc, if_true]
    rw [show ds.append rest = ds ++ rest from rfl, ih2]

theorem digsVal_append_one (l : List Char) (c : Char) :
    digsVal (l ++ [c]) = digsVal l * 10 + (c.toNat - 48) := by
  simp [digsVal, List.foldl_append]

theorem digsVal_natChars (n : Nat) : digsVal (natChars n) = n := by
  induction n using Nat.strongRecOn with
  | _ n ih =>
    rw [natChars, digsVal_append_one, digitChar_toNat _ (Nat.mod_lt _ (by omega))]
    by_cases h10 : n < 10
    · simp only [dif_pos h10, digsVal, List.foldl_nil]
      omega
    · rw [dif_neg h10, ih (n / 10) (Nat.div_lt_self (by omega) (by omega))]
      omega

theorem parseJNat_natChars (n : Nat) (rest : List Char)
    (hrest : takeDigs rest = ([], rest)) :
    parseJNat (natChars n ++ rest) = some (n, rest) := by
  obtain ⟨c, t, hct⟩ : ∃ c t, natChars n = c :: t := by
    match h : natChars n with
    | [] => exact absurd h (natChars_ne_nil _)
    | c :: t => exact ⟨c, t, rfl⟩
  have hval : digsVal (c :: t) = n := by rw [← hct, digsVal_natChars]
  rw [parseJNat, takeDigs_run _ (natChars_digits n) _ hrest, hct]
  simp [hval]

theorem parseJValue_intChars (i : Int) (rest : List Char)
    (hrest : takeDigs rest = ([], rest)) :
    parseJValue (intChars i ++ rest) = some (JVal.jint i, rest) := by
  rw [intChars]
  by_cases hneg : i < 0
  · rw [if_pos hneg]
    have h1 : ∀ l, parseJValue ('-' :: l)
        = (parseJNat l).map fun p => (JVal.jint (-(p.1 : Int)), p.2) := fun l => rfl
    rw [List.cons_append, h1, parseJNat_natChars _ _ hrest]
    have habs : -((i.natAbs : Int)) = i := by omega
    simp only [Option.map_some', habs]
  · rw [if_neg hneg]
    obtain ⟨c, t, hct⟩ : ∃ c t, natChars i.natAbs = c :: t := by
      match h : natChars i.natAbs with
      | [] => exact absurd h (natChars_ne_nil _)
      | c :: t => exact ⟨c, t, rfl⟩
    have hc : digitB c = true := by
      have := natChars_digits i.natAbs c
      rw [hct] at this
      exact this (List.mem_cons_self _ _)
    have hcq : ¬c = '"' := by
      intro h
      subst h
      exact absurd hc (by decide)
    have hcm : ¬c = '-' := by
      intro h
      subst h
      exact absurd hc (by decide)
    have h2 : parseJValue (c :: (t ++ rest))
        = (parseJNat (c :: (t ++ rest))).map fun p => (JVal.jint (p.1 : Int), p.2) := by
      simp only [parseJValue, if_neg hcq, if_neg hcm]
    rw [hct, List.cons_append, h2, ← List.cons_append, ← hct,
      parseJNat_natChars _ _ hrest]
    have habs : ((i.natAbs : Int)) = i := by omega
    simp only [Option.map_some', habs]

theorem hexVal_hexDig (k : Nat) (h : k < 16) : hexVal (hexDig k) = some k := by
  interval_cases k <;> decide

theorem parseJString_escChar (c : Char) (rest : List Char) :
    parseJString (goEscChar c ++ rest)
      = (parseJString rest).map fun p => (c :: p.1, p.2) := by
  rw [goEscChar]
  split_ifs with h1 h2 h3 h4 h5 h6 h7
  · subst h1
    rw [parseJString.eq_def]
    simp [goUnescChar]
  · subst h2
    rw [parseJString.eq_def]
    simp [goUnescChar]
  · subst h3
    rw [parseJString.eq_def]
    simp [goUnescChar]
  · subst h4
    rw [parseJString.eq_def]
    simp [goUnescChar]
  · subst h5
    rw [parseJString.eq_def]
    simp [goUnescChar]
  · have hlt : c.toNat < 256 := by
      rcases h6 with h | h | h | h
      · omega
      · subst h
        decide
      · subst h
        decide
      · subst h
        decide
    have hhi := hexVal_hexDig (c.toNat / 16) (by omega)
    have hlo := hexVal_hexDig (c.toNat % 16) (by omega)
    have h0 : hexVal '0' = some 0 := by decide
    rw [parseJString.eq_def]
    simp [hex4, h0, hhi, hlo]
    have harith : c.toNat / 16 * 16 + c.toNat % 16 = c.toNat := by omega
    simp only [harith, Char.ofNat_toNat]
  · have hhi := hexVal_hexDig (c.toNat % 16) (by rcases h7 with h | h <;> omega)
    have h0 : hexVal '0' = some 0 := by decide
    have h2c : hexVal '2' = some 2 := by decide
    rw [parseJString.eq_def]
    simp [hex4, h0, h2c, hhi]
    have harith : 8224 + c.toNat % 16 = c.toNat := by rcases h7 with h | h <;> omega
    simp only [harith, Char.ofNat_toNat]
  · rw [List.cons_append, List.nil_append, parseJString.eq_def]
    simp [h1, h2]

theorem parseJString_escRun (cs : List Char) : ∀ rest : List Char,
    parseJString (escRun cs ++ '"' :: rest) = some (cs, rest) := by
  induction cs with
  | nil =>
    intro rest
    rw [show escRun [] ++ '"' :: rest = '"' :: rest from rfl, parseJString.eq_def]
    simp
  | cons c cs ih =>
    intro rest
    rw [escRun, List.flatMap_cons, ← escRun, List.append_assoc,
      parseJString_escChar, ih]
    rfl

theorem parseJValue_strChars (v : String) (rest : List Char) :
    parseJValue (strChars v ++ rest) = some (JVal.jstr v.data, rest) := by
  have hq : ∀ l, parseJValue ('"' :: l)
      = (parseJString l).map fun p => (JVal.jstr p.1, p.2) := fun l => rfl
  rw [strChars, List.cons_append, hq, List.append_assoc, List.cons_append,
    List.nil_append, parseJString_escRun]
  rfl


theorem parseJString_lit (ks : List Char) (hks : escRun ks = ks) (r : List Char) :
    parseJString (ks ++ '"' :: r) = some (ks, r) := by
  conv_lhs => rw [← hks]
  rw [parseJString_escRun]

theorem applyMember_userId (acc : Session) (i : Int) :
    applyMember acc keyUserId (JVal.jint i) = some { acc with userId := i } := rfl

theorem applyMember_username (acc : Session) (cs : List Char) :
    applyMember acc keyUsername (JVal.jstr cs) = some { acc with username := String.mk cs } := rfl

theorem applyMember_email (acc : Session) (cs : List Char) :
    applyMember acc keyEmail (JVal.jstr cs) = some { acc with email := String.mk cs } := rfl

theorem applyMember_role (acc : Session) (cs : List Char) :
    applyMember acc keyRole (JVal.jstr cs) = some { acc with role := String.mk cs } := rfl

theorem parseJMembers_more {fuel : Nat} {acc : Session} {cs k r1 : List Char}
    {jv : JVal} {r4 : List Char} {acc2 : Session}
    (hk : parseJString cs = some (k, ':' :: r1))
    (hv : parseJValue r1 = some (jv, ',' :: '"' :: r4))
    (ha : applyMember acc k jv = some acc2) :
    parseJMembers (fuel + 1) acc cs = parseJMembers fuel acc2 r4 := by
  simp only [parseJMembers, hk, Option.some_bind, hv, ha]

theorem parseJMembers_last {fuel : Nat} {acc : Session} {cs k r1 : List Char}
    {jv : JVal} {r4 : List Char} {acc2 : Session}
    (hk : parseJString cs = some (k, ':' :: r1))
    (hv : parseJValue r1 = some (jv, '}' :: r4))
    (ha : applyMember acc k jv = some acc2) :
    parseJMembers (fuel + 1) acc cs = some (acc2, r4) := by
  simp only [parseJMembers, hk, Option.some_bind, hv, ha]

theorem parseJMembers_encode (n : Nat) (s : Session) :
    parseJMembers (n + 4) session0
      (keyUserId ++ '"' :: ':' :: (intChars s.userId ++
        ',' :: '"' :: (keyUsername ++ '"' :: ':' :: (strChars s.username ++
        ',' :: '"' :: (keyEmail ++ '"' :: ':' :: (strChars s.email ++
        ',' :: '"' :: (keyRole ++ '"' :: ':' :: (strChars s.role ++ ['}']))))))))
      = some (s, []) := by
  have e1 := parseJString_lit keyUserId (by decide)
  have e2 := parseJString_lit keyUsername (by decide)
  have e3 := parseJString_lit keyEmail (by decide)
  have e4 := parseJString_lit keyRole (by decide)
  have hterm : ∀ l : List Char, takeDigs (',' :: l) = ([], ',' :: l) :=
    fun l => takeDigs_nondigit _ (by decide)
  rw [show n + 4 = n + 3 + 1 from rfl,
    parseJMembers_more (e1 _) (parseJValue_intChars _ _ (hterm _)) (applyMember_userId _ _)]
  rw [show n + 3 = n + 2 + 1 from rfl,
    parseJMembers_more (e2 _) (parseJValue_strChars _ _) (applyMember_username _ _)]
  rw [show n + 2 = n + 1 + 1 from rfl,
    parseJMembers_more (e3 _) (parseJValue_strChars _ _) (applyMember_email _ _)]
  rw [show n + 1 = n + 0 + 1 from rfl,
    parseJMembers_last (e4 _) (parseJValue_strChars _ _) (applyMember_role _ _)]

/-- The codec round-trip: decoding a marshalled session recovers it exactly. -/
theorem decodeSession_encodeSession (s : Session) :
    decodeSession (encodeSession s) = some s := by
  have hkey : encodeSessionL s = '{' :: '"' :: (keyUserId ++ '"' :: ':' :: (intChars s.userId ++
      ',' :: '"' :: (keyUsername ++ '"' :: ':' :: (strChars s.username ++
      ',' :: '"' :: (keyEmail ++ '"' :: ':' :: (strChars s.email ++
      ',' :: '"' :: (keyRole ++ '"' :: ':' :: (strChars s.role ++ ['}'])))))))) := rfl
  have hdec : ∀ body : List Char,
      decodeSessionL ('{' :: '"' :: body)
        = (parseJMembers ('{' :: '"' :: body).length session0 body).bind
            (fun p => if p.2.isEmpty then some p.1 else none) := fun body => rfl
  have hlen : 4 ≤ (encodeSessionL s).length := by
    rw [hkey]
    simp [keyUserId]
  obtain ⟨m, hm⟩ : ∃ m, (encodeSessionL s).length = m + 4 :=
    ⟨(encodeSessionL s).length - 4, by omega⟩
  rw [hkey] at hm
  show decodeSessionL (encodeSessionL s) = some s
  rw [hkey, hdec, hm, parseJMembers_encode m s]
  rfl


/-! ### Claims -/

/-- C1: for every stored user record and every `login(identifier, password)`
call whose identifier resolves to that record (it equals the record's
username or email) and whose password matches the stored bcrypt hash, the
service returns a session whose userId/username/email/role equal the record's
fields, writes that session's JSON under the generated token with the
24-hour TTL, and a subsequent `getSession(token)` returns the identical
payload (marshal-then-unmarshal round-trip). -/
theorem C1_login_session_roundtrip
    (bcheck : String → String → Bool) (users : List User) (st : Store)
    (identifier password token : String) (u : User)
    (hfind : getUserByUsernameOrEmail users identifier = some u)
    (hpw : bcheck u.passwordHash password = true) :
    loginSvc bcheck users st identifier password token
      = Except.ok ((⟨u.id, u.username, u.email, u.role⟩ : Session), token,
          setSession st token ⟨u.id, u.username, u.email, u.role⟩ defaultSessionTTL)
    ∧ setSession st token (⟨u.id, u.username, u.email, u.role⟩ : Session) defaultSessionTTL
        (sessionKey token)
        = some (encodeSession ⟨u.id, u.username, u.email, u.role⟩, defaultSessionTTL)
    ∧ getSessionSvc
        (setSession st token (⟨u.id, u.username, u.email, u.role⟩ : Session) defaultSessionTTL)
        token
      = some ⟨u.id, u.username, u.email, u.role⟩ := by
  refine ⟨?_, ?_, ?_⟩
  · simp [loginSvc, hfind, hpw]
  · simp [setSession, redisSet, defaultSessionTTL]
  · simp [getSessionSvc, getSessionCache, setSession, redisGet, redisSet,
      decodeSession_encodeSession]

/-- Witness for C1 at a concrete record, store and matching password. -/
theorem C1_login_session_roundtrip_witness :
    getSessionSvc
      (setSession (fun _ => none) "tok1"
        (⟨1, "alice", "alice@example.com", "Admin"⟩ : Session) defaultSessionTTL)
      "tok1"
      = some ⟨1, "alice", "alice@example.com", "Admin"⟩ :=
  (C1_login_session_roundtrip (fun h p => h == p)
    [⟨1, "alice", "alice@example.com", "pw1", "Admin", none⟩]
    (fun _ => none) "alice" "pw1" "tok1"
    ⟨1, "alice", "alice@example.com", "pw1", "Admin", none⟩
    (by decide) (by decide)).2.2

/-- C2: a login whose identifier matches no stored user and a login whose
identifier matches a user but whose password fails verification both fail
with the same `ErrInvalidCredentials`, and the HTTP login handler maps both
to the identical 401 response with body error "invalid credentials", no
cookie, and an unchanged store: the two runs are indistinguishable at the
client interface. -/
theorem C2_invalid_credentials_uniform
    (bcheck : String → String → Bool) (users : List User) (st1 st2 : Store)
    (id1 pw1 tok1 rq1 id2 pw2 tok2 rq2 : String) (u : User)
    (h1 : getUserByUsernameOrEmail users id1 = none)
    (h2 : getUserByUsernameOrEmail users id2 = some u)
    (h3 : bcheck u.passwordHash pw2 = false)
    (hne1 : id1 ≠ "") (hne2 : pw1 ≠ "") (hne3 : id2 ≠ "") (hne4 : pw2 ≠ "") :
    loginSvc bcheck users st1 id1 pw1 tok1 = Except.error AuthErr.invalidCredentials
    ∧ loginSvc bcheck users st2 id2 pw2 tok2 = Except.error AuthErr.invalidCredentials
    ∧ loginHandler bcheck users st1 id1 pw1 tok1 rq1
        = (st1, ⟨401, [("error", "invalid credentials")]⟩, none)
    ∧ loginHandler bcheck users st2 id2 pw2 tok2 rq2
        = (st2, ⟨401, [("error", "invalid credentials")]⟩, none) := by
  have hs1 : loginSvc bcheck users st1 id1 pw1 tok1
      = Except.error AuthErr.invalidCredentials := by
    simp [loginSvc, h1]
  have hs2 : loginSvc bcheck users st2 id2 pw2 tok2
      = Except.error AuthErr.invalidCredentials := by
    simp [loginSvc, h2, h3]
  refine ⟨hs1, hs2, ?_, ?_⟩
  · simp [loginHandler, hne1, hne2, hs1]
  · simp [loginHandler, hne3, hne4, hs2]

/-- Witness for C2: unknown identifier and wrong password produce the same
401 body at concrete inputs. -/
theorem C2_invalid_credentials_uniform_witness :
    loginHandler (fun h p => h == p)
        [⟨1, "alice", "alice@example.com", "pw1", "Admin", none⟩]
        (fun _ => none) "nobody" "x" "tokA" "rqA"
      = ((fun _ => none : Store), ⟨401, [("error", "invalid credentials")]⟩, none) :=
  (C2_invalid_credentials_uniform (fun h p => h == p)
    [⟨1, "alice", "alice@example.com", "pw1", "Admin", none⟩]
    (fun _ => none) (fun _ => none) "nobody" "x" "tokA" "rqA" "alice" "wrong" "tokB" "rqB"
    ⟨1, "alice", "alice@example.com", "pw1", "Admin", none⟩
    (by decide) (by decide) (by decide)
    (by decide) (by decide) (by decide) (by decide)).2.2.1

/-- C7: after `logout(token)` the cache entry is gone, so `getSession(token)`
fails; a second `logout(token)` succeeds as a no-op (Redis `DEL` deletes zero
keys and reports no error on an absent key), so logout is idempotent. -/
theorem C7_logout_idempotent (st : Store) (sid : String) :
    getSessionSvc (logoutSvc st sid) sid = none
    ∧ (∀ k, logoutSvc (logoutSvc st sid) sid k = logoutSvc st sid k)
    ∧ (redisDel (logoutSvc st sid) (sessionKey sid)).2 = 0 := by
  refine ⟨?_, ?_, ?_⟩
  · simp [getSessionSvc, getSessionCache, logoutSvc, deleteSessionCache,
      redisDel, redisGet]
  · intro k
    by_cases hk : k = sessionKey sid
    · simp [logoutSvc, deleteSessionCache, redisDel, hk]
    · simp [logoutSvc, deleteSessionCache, redisDel, hk]
  · simp [logoutSvc, deleteSessionCache, redisDel]


/-- C3: the role-check middleware responds 401 for every allow-list when the
`session_id` cookie is absent (empty) or does not resolve to a live cached
session; when the cookie resolves to a session whose role fold-equals some
allow-list entry (case-insensitive) the request passes to the next handler
with that session; when the role matches no entry it responds 403. -/
theorem C3_require_role (st : Store) (roles : List String) :
    requireRole st "" roles = MWOutcome.halt ⟨401, [("error", "unauthorized")]⟩
    ∧ (∀ sid, sid ≠ "" → getSessionSvc st sid = none →
        requireRole st sid roles = MWOutcome.halt ⟨401, [("error", "unauthorized")]⟩)
    ∧ (∀ sid s, sid ≠ "" → getSessionSvc st sid = some s →
        (∃ r ∈ roles, eqFold s.role r = true) →
        requireRole st sid roles = MWOutcome.next s)
    ∧ (∀ sid s, sid ≠ "" → getSessionSvc st sid = some s →
        (∀ r ∈ roles, eqFold s.role r = false) →
        requireRole st sid roles = MWOutcome.halt ⟨403, [("error", "forbidden")]⟩) := by
  refine ⟨?_, ?_, ?_, ?_⟩
  · simp [requireRole]
  · intro sid hne hres
    simp [requireRole, hne, hres]
  · intro sid s hne hres hmatch
    have hany : roles.any (fun r => eqFold s.role r) = true :=
      List.any_eq_true.mpr (by
        obtain ⟨r, hr, he⟩ := hmatch
        exact ⟨r, hr, he⟩)
    simp [requireRole, hne, hres, hany]
  · intro sid s hne hres hmiss
    have hany : roles.any (fun r => eqFold s.role r) = false := by
      rw [List.any_eq_false]
      intro r hr
      simp [hmiss r hr]
    simp [requireRole, hne, hres, hany]

/-- Witness for C3 at the spec's example: role "Admin" passes the allow-list
["Admin", "SuperAdmin"], is refused 403 by ["SuperAdmin"], and an absent
cookie is refused 401. -/
theorem C3_require_role_witness :
    requireRole
        (fun k => if k = "session:tok1"
          then some (encodeSession ⟨1, "alice", "alice@example.com", "Admin"⟩,
                     defaultSessionTTL)
          else none)
        "tok1" ["Admin", "SuperAdmin"]
      = MWOutcome.next ⟨1, "alice", "alice@example.com", "Admin"⟩
    ∧ requireRole
        (fun k => if k = "session:tok1"
          then some (encodeSession ⟨1, "alice", "alice@example.com", "Admin"⟩,
                     defaultSessionTTL)
          else none)
        "tok1" ["SuperAdmin"]
      = MWOutcome.halt ⟨403, [("error", "forbidden")]⟩
    ∧ requireRole
        (fun k => if k = "session:tok1"
          then some (encodeSession ⟨1, "alice", "alice@example.com", "Admin"⟩,
                     defaultSessionTTL)
          else none)
        "" ["Admin", "SuperAdmin"]
      = MWOutcome.halt ⟨401, [("error", "unauthorized")]⟩ := by
  have hres : getSessionSvc
      (fun k => if k = "session:tok1"
        then some (encodeSession ⟨1, "alice", "alice@example.com", "Admin"⟩,
                   defaultSessionTTL)
        else none)
      "tok1" = some ⟨1, "alice", "alice@example.com", "Admin"⟩ := by
    have hk : sessionKey "tok1" = "session:tok1" := rfl
    simp [getSessionSvc, getSessionCache, redisGet, hk, decodeSession_encodeSession]
  refine ⟨?_, ?_, ?_⟩
  · exact (C3_require_role _ ["Admin", "SuperAdmin"]).2.2.1 "tok1"
      ⟨1, "alice", "alice@example.com", "Admin"⟩
      (by decide) hres ⟨"Admin", by decide, by decide⟩
  · exact (C3_require_role _ ["SuperAdmin"]).2.2.2 "tok1"
      ⟨1, "alice", "alice@example.com", "Admin"⟩
      (by decide) hres (by decide)
  · exact (C3_require_role _ ["Admin", "SuperAdmin"]).1


/-- C4 counterexample: the two non-success modes of `verifyCode` are
observably different.  With no cached entry (absent or TTL-expired) the
handler returns 500 "failed to verify OTP" (the `redis.Nil` error path),
while with a cached entry unequal to the submitted code it returns 400
"Invalid OTP": the claim's "same failure response, with no observable
distinction" is false at these inputs. -/
theorem C4_distinct_failures_counterexample :
    (verifyOTPHandler ⟨fun _ => none, []⟩ 0 "a@b.c" "123456" "rq").2
      = ⟨500, [("error", "failed to verify OTP")]⟩
    ∧ (verifyOTPHandler
        ⟨fun k => if k = "otp:a@b.c" then some ("654321", otpCacheTTL) else none, []⟩
        0 "a@b.c" "123456" "rq").2
      = ⟨400, [("valid", "false"), ("message", "Invalid OTP"), ("request_id", "rq")]⟩
    ∧ (⟨500, [("error", "failed to verify OTP")]⟩ : HResp)
      ≠ ⟨400, [("valid", "false"), ("message", "Invalid OTP"), ("request_id", "rq")]⟩ := by
  refine ⟨?_, ?_, by decide⟩
  · have hk : otpKey "a@b.c" = "otp:a@b.c" := rfl
    simp [verifyOTPHandler, verifyOTPCache, getOTP, redisGet, hk]
  · have hk : otpKey "a@b.c" = "otp:a@b.c" := rfl
    simp [verifyOTPHandler, verifyOTPCache, getOTP, redisGet, hk]

/-- C4 amended: every call to `verifyCode` that does not succeed leaves both
the cache and the audit table unmutated, but the failure responses are
distinguishable: an absent/expired cache entry yields 500 "failed to verify
OTP" while a present-but-unequal code yields 400 "Invalid OTP". -/
theorem C4_failure_no_mutation (st : OTPState) (now : Nat) (email otp reqId : String) :
    ((verifyOTPHandler st now email otp reqId).2.status ≠ 200 →
      (verifyOTPHandler st now email otp reqId).1 = st)
    ∧ (email ≠ "" → otp ≠ "" → getOTP st.cache email = none →
        (verifyOTPHandler st now email otp reqId).2
          = ⟨500, [("error", "failed to verify OTP")]⟩)
    ∧ (email ≠ "" → otp ≠ "" → ∀ stored, getOTP st.cache email = some stored →
        stored ≠ otp →
        (verifyOTPHandler st now email otp reqId).2
          = ⟨400, [("valid", "false"), ("message", "Invalid OTP"),
                   ("request_id", reqId)]⟩) := by
  refine ⟨?_, ?_, ?_⟩
  · intro hne
    by_cases he : email = "" ∨ otp = ""
    · simp [verifyOTPHandler, he]
    · rcases hcache : verifyOTPCache st.cache email otp with _ | valid
      · simp [verifyOTPHandler, he, hcache]
      · rcases valid with _ | _
        · simp [verifyOTPHandler, he, hcache]
        · exfalso
          apply hne
          simp [verifyOTPHandler, he, hcache]
  · intro he ho habs
    have : verifyOTPCache st.cache email otp = none := by
      simp [verifyOTPCache, habs]
    simp [verifyOTPHandler, he, ho, this]
  · intro he ho stored hstored hneq
    have : verifyOTPCache st.cache email otp = some false := by
      simp [verifyOTPCache, hstored, hneq]
    simp [verifyOTPHandler, he, ho, this]

/-- Witness for C4's amended statement at a concrete mismatching code. -/
theorem C4_failure_no_mutation_witness :
    (verifyOTPHandler
        ⟨fun k => if k = "otp:a@b.c" then some ("654321", otpCacheTTL) else none, []⟩
        0 "a@b.c" "123456" "rq").2
      = ⟨400, [("valid", "false"), ("message", "Invalid OTP"), ("request_id", "rq")]⟩ :=
  (C4_failure_no_mutation
      ⟨fun k => if k = "otp:a@b.c" then some ("654321", otpCacheTTL) else none, []⟩
      0 "a@b.c" "123456" "rq").2.2
    (by decide) (by decide) "654321"
    (by
      have hk : otpKey "a@b.c" = "otp:a@b.c" := rfl
      simp [getOTP, redisGet, hk])
    (by decide)


/-- C5 counterexample: with an existing account and a successful cache write,
a delivery failure does turn the response into an error when SMTP is not
configured: the handler returns 500 instead of success, refuting "returns
success regardless of whether email delivery succeeds or fails". -/
theorem C5_delivery_failure_counterexample :
    (sendOTPHandler [⟨1, "alice", "a@b.c", "h1", "user", none⟩]
        ⟨fun _ => none, []⟩ ⟨"", "", ""⟩ false 0 1 "a@b.c" "123456" "rq").2.status
      = 500 := by
  simp [sendOTPHandler, getUserByUsernameOrEmail, sendOTPEmailOk, isSMTPConfigured]

/-- C5 amended: for a request whose email maps to an existing account (the
cache write always succeeds in the model), the response is a success
regardless of delivery outcome whenever SMTP is configured — a delivery
failure is only logged; but when SMTP is not configured, delivery fails and
the handler returns a 500 "Email service not configured" error. -/
theorem C5_delivery_best_effort (users : List User) (st : OTPState)
    (cfg : SMTPConfig) (deliveryOk : Bool) (now newId : Nat)
    (reqEmail otp reqId : String) (u : User)
    (hne : reqEmail ≠ "")
    (hu : getUserByUsernameOrEmail users reqEmail = some u) :
    (isSMTPConfigured cfg = true →
      (sendOTPHandler users st cfg deliveryOk now newId reqEmail otp reqId).2
        = ⟨200, [("message", "OTP sent successfully"), ("request_id", reqId)]⟩)
    ∧ (isSMTPConfigured cfg = false →
      (sendOTPHandler users st cfg deliveryOk now newId reqEmail otp reqId).2.status
        = 500) := by
  constructor
  · intro hcfg
    have hc : ¬(cfg.host = "" ∨ cfg.username = "" ∨ cfg.password = "") := by
      simp [isSMTPConfigured] at hcfg
      simp [hcfg]
    rcases hdel : deliveryOk with _ | _
    · simp [sendOTPHandler, hne, hu, sendOTPEmailOk, hc, hcfg]
    · simp [sendOTPHandler, hne, hu, sendOTPEmailOk, hc]
  · intro hcfg
    have hc : cfg.host = "" ∨ cfg.username = "" ∨ cfg.password = "" := by
      simp only [isSMTPConfigured, Bool.and_eq_false_iff, Bool.not_eq_false',
        beq_iff_eq] at hcfg
      rcases hcfg with h | h
      · rcases h with h | h
        · exact Or.inl h
        · exact Or.inr (Or.inl h)
      · exact Or.inr (Or.inr h)
    simp [sendOTPHandler, hne, hu, sendOTPEmailOk, hc, hcfg]

/-- Witness for C5's amended statement: configured SMTP, failed delivery,
response still a success. -/
theorem C5_delivery_best_effort_witness :
    (sendOTPHandler [⟨1, "alice", "a@b.c", "h1", "user", none⟩]
        ⟨fun _ => none, []⟩ ⟨"smtp.example.com", "bot", "pw"⟩ false 0 1
        "a@b.c" "123456" "rq").2
      = ⟨200, [("message", "OTP sent successfully"), ("request_id", "rq")]⟩ :=
  (C5_delivery_best_effort [⟨1, "alice", "a@b.c", "h1", "user", none⟩]
      ⟨fun _ => none, []⟩ ⟨"smtp.example.com", "bot", "pw"⟩ false 0 1
      "a@b.c" "123456" "rq" ⟨1, "alice", "a@b.c", "h1", "user", none⟩
      (by decide) (by decide)).1 (by decide)

/-- The conditional-update guard can only hold later if it held earlier: with
a monotone clock, a row that did not match at `now` does not match at a later
`now2` unless it matched at `now`. -/
theorem otpUpdGuard_mono (now now2 : Nat) (h : now ≤ now2) (email otp : String)
    (r : OTPRow) (hg : otpUpdGuard now2 email otp r = true) :
    otpUpdGuard now email otp r = true := by
  simp only [otpUpdGuard, Bool.and_eq_true, decide_eq_true_eq] at hg ⊢
  exact ⟨⟨⟨hg.1.1.1, hg.1.1.2⟩, hg.1.2⟩, by omega⟩

/-- C6: a one-time code is consumable at most once.  After a successful
`verifyCode(email, code)` — which flips the audit row's verified flag through
the single conditional update guarded by "not yet verified AND not expired"
and deletes the cache entry — a second call with the same pair does not
succeed (it hits the deleted cache entry and returns the 500 failure), and
the conditional update itself matches no row a second time. -/
theorem C6_otp_single_use (st : OTPState) (now now2 : Nat)
    (email otp reqId reqId2 : String)
    (hmono : now ≤ now2)
    (hfirst : (verifyOTPHandler st now email otp reqId).2.status = 200) :
    (verifyOTPHandler (verifyOTPHandler st now email otp reqId).1 now2
        email otp reqId2).2
      = ⟨500, [("error", "failed to verify OTP")]⟩
    ∧ (verifyOTPFromDB (verifyOTPFromDB st.db now email otp).1 now2 email otp).2
      = false := by
  constructor
  · by_cases he : email = "" ∨ otp = ""
    · exfalso
      simp [verifyOTPHandler, he] at hfirst
    · rcases hcache : verifyOTPCache st.cache email otp with _ | b
      · exfalso
        simp [verifyOTPHandler, he, hcache] at hfirst
      · rcases b with _ | _
        · exfalso
          simp [verifyOTPHandler, he, hcache] at hfirst
        · have hst2 : (verifyOTPHandler st now email otp reqId).1
              = ⟨deleteOTP st.cache email, (verifyOTPFromDB st.db now email otp).1⟩ := by
            simp [verifyOTPHandler, he, hcache]
          have hget : getOTP (deleteOTP st.cache email) email = none := by
            simp [getOTP, deleteOTP, redisDel, redisGet]
          have hc2 : verifyOTPCache (deleteOTP st.cache email) email otp = none := by
            simp [verifyOTPCache, hget]
          rw [hst2]
          simp [verifyOTPHandler, he, hc2]
  · rw [verifyOTPFromDB]
    simp only
    rw [List.any_eq_false]
    intro r hr
    rw [verifyOTPFromDB] at hr
    simp only [List.mem_map] at hr
    obtain ⟨r0, _, heq⟩ := hr
    by_cases hg : otpUpdGuard now email otp r0 = true
    · rw [if_pos hg] at heq
      subst heq
      simp [otpUpdGuard]
    · rw [if_neg hg] at heq
      subst heq
      intro hg2
      exact hg (otpUpdGuard_mono now now2 hmono email otp r0 hg2)

/-- Witness for C6 at a concrete state holding the code in cache and table. -/
theorem C6_otp_single_use_witness :
    (verifyOTPHandler
        (verifyOTPHandler
          ⟨fun k => if k = "otp:a@b.c" then some ("123456", otpCacheTTL) else none,
           [⟨1, "a@b.c", "123456", some 1, "password_change", false, 100, none⟩]⟩
          10 "a@b.c" "123456" "rq").1
        20 "a@b.c" "123456" "rq2").2
      = ⟨500, [("error", "failed to verify OTP")]⟩ :=
  (C6_otp_single_use
      ⟨fun k => if k = "otp:a@b.c" then some ("123456", otpCacheTTL) else none,
       [⟨1, "a@b.c", "123456", some 1, "password_change", false, 100, none⟩]⟩
      10 20 "a@b.c" "123456" "rq" "rq2" (by decide)
      (by
        have hk : otpKey "a@b.c" = "otp:a@b.c" := rfl
        simp [verifyOTPHandler, verifyOTPCache, getOTP, redisGet, hk])).1


/-- C8 counterexample: a request targeting a SuperAdmin record that tries to
set the status to a value outside the allowed set is refused with 400
("invalid status"), not 403 — the status validation runs before the
SuperAdmin guard — so "refuses with 403" does not hold for every update
request touching those fields. -/
theorem C8_malformed_status_counterexample :
    updateUserGuard (fun s => s) "Admin" "SuperAdmin"
        { emptyUpdateReq with status := some "banana" }
      = UpdOutcome.halt ⟨400,
          [("error", "invalid status. Must be one of: active, inactive, expired, closed")]⟩ := by
  decide

/-- C8 amended: for every update request targeting a record whose role is
SuperAdmin (case-insensitive) and every caller session, any attempt to change
the role is refused with 403; any attempt to change the status is refused with
403 when the value is well-formed (or via isActive) and with 400 when it is
malformed; and whatever the request, the executed UPDATE never assigns the
role or status columns, so both fields stay unchanged. -/
theorem C8_superadmin_protected (hash : String → String)
    (sessionRole targetRole : String) (req : UpdateReq)
    (htarget : asciiLower targetRole = "superadmin") :
    (req.role ≠ none →
      updateUserGuard hash sessionRole targetRole req
        = UpdOutcome.halt ⟨403, [("error", "cannot change the role of SuperAdmin users")]⟩)
    ∧ (req.role = none → ∀ sv, req.status = some sv →
        (validStatusB (asciiLower (trimSpace sv)) = true →
          updateUserGuard hash sessionRole targetRole req
            = UpdOutcome.halt ⟨403, [("error", "cannot change the status of SuperAdmin users")]⟩)
        ∧ (validStatusB (asciiLower (trimSpace sv)) = false →
          updateUserGuard hash sessionRole targetRole req
            = UpdOutcome.halt ⟨400,
                [("error", "invalid status. Must be one of: active, inactive, expired, closed")]⟩))
    ∧ (req.role = none → req.status = none → req.isActive ≠ none →
        updateUserGuard hash sessionRole targetRole req
          = UpdOutcome.halt ⟨403, [("error", "cannot change the status of SuperAdmin users")]⟩)
    ∧ (∀ upds, updateUserGuard hash sessionRole targetRole req = UpdOutcome.exec upds →
        ∀ kv ∈ upds, kv.1 ≠ "role" ∧ kv.1 ≠ "status") := by
  refine ⟨?_, ?_, ?_, ?_⟩
  · intro hrole
    rcases hr : req.role with _ | v
    · exact absurd hr hrole
    · simp [updateUserGuard, hr, htarget]
  · intro hrole sv hsv
    constructor
    · intro hvalid
      simp [updateUserGuard, hrole, hsv, hvalid, htarget]
    · intro hvalid
      simp [updateUserGuard, hrole, hsv, hvalid, htarget]
  · intro hrole hstatus hactive
    rcases ha : req.isActive with _ | b
    · exact absurd ha hactive
    · simp [updateUserGuard, hrole, hstatus, ha, htarget]
  · intro upds hexec kv hkv
    rcases hr : req.role with _ | v
    · rcases hs : req.status with _ | sv
      · rcases ha : req.isActive with _ | b
        · rcases he : req.email with _ | ev <;>
          rcases hn : req.username with _ | nv <;>
          rcases hp : req.password with _ | pv <;>
          rcases hna : req.name with _ | nav <;>
          rcases hph : req.phone with _ | phv <;>
          (simp only [updateUserGuard, hr, hs, ha, he, hn, hp, hna, hph,
             List.nil_append, List.cons_append, List.append_nil,
             List.append_assoc, List.singleton_append] at hexec
           injection hexec with hupds
           subst hupds
           fin_cases hkv <;> exact ⟨by simp, by simp⟩)
        · simp [updateUserGuard, hr, hs, ha, htarget] at hexec
      · by_cases hv : validStatusB (asciiLower (trimSpace sv)) = true
        · simp [updateUserGuard, hr, hs, hv, htarget] at hexec
        · simp [updateUserGuard, hr, hs, hv, htarget] at hexec
    · simp [updateUserGuard, hr, htarget] at hexec

/-- Witness for C8's amended statement: an Admin caller cannot change a
SuperAdmin's role. -/
theorem C8_superadmin_protected_witness :
    updateUserGuard (fun s => s) "Admin" "SuperAdmin"
        { emptyUpdateReq with role := some "User" }
      = UpdOutcome.halt ⟨403, [("error", "cannot change the role of SuperAdmin users")]⟩ :=
  (C8_superadmin_protected (fun s => s) "Admin" "SuperAdmin"
      { emptyUpdateReq with role := some "User" } (by decide)).1 (by decide)


theorem mem_insertByLastActive (r x : SessRow) (l : List SessRow) :
    x ∈ insertByLastActive r l ↔ x = r ∨ x ∈ l := by
  induction l with
  | nil => simp [insertByLastActive]
  | cons y ys ih =>
    simp only [insertByLastActive]
    by_cases h : y.lastActive ≤ r.lastActive
    · simp [h]
    · simp only [h, if_false, List.mem_cons, ih]
      tauto

theorem mem_sortByLastActive (l : List SessRow) (x : SessRow) :
    x ∈ sortByLastActive l ↔ x ∈ l := by
  induction l with
  | nil => simp [sortByLastActive]
  | cons y ys ih => simp [sortByLastActive, mem_insertByLastActive, ih]

theorem sessionRowLive_iff (uid : Int) (now : Nat) (r : SessRow) :
    sessionRowLive uid now r = true
      ↔ r.userId = uid ∧ now < r.expiresAt
        ∧ (r.loggedOutAt = none ∨ ∃ t, r.loggedOutAt = some t ∧ now < t) := by
  rcases h : r.loggedOutAt with _ | tt
  · simp [sessionRowLive, h, and_assoc]
  · simp [sessionRowLive, h, and_assoc]

/-- C9 counterexample: a metadata row with a logout timestamp in the future
(`logged_out_at = 150 > now = 100`) is returned as active even though its
`logged_out_at` is not NULL, because the query's filter is
`expires_at > now AND (logged_out_at IS NULL OR logged_out_at > now)` rather
than the claimed `logged_out_at IS NULL AND expires_at > now`. -/
theorem C9_future_logout_counterexample :
    getUserSessions [⟨1, 7, "sidA", none, none, none, none, 50, 200, 10, some 150⟩]
        7 "cur" 100
      = [(⟨1, 7, "sidA", none, none, none, none, 50, 200, 10, some 150⟩, false)]
    ∧ ∀ rb ∈ getUserSessions
        [⟨1, 7, "sidA", none, none, none, none, 50, 200, 10, some 150⟩] 7 "cur" 100,
        rb.1.loggedOutAt ≠ none := by
  decide

theorem getUserSessions_mem (table : List SessRow) (uid : Int) (cur : String)
    (now : Nat) (r : SessRow) (b : Bool) :
    (r, b) ∈ getUserSessions table uid cur now
      ↔ r ∈ table ∧ sessionRowLive uid now r = true ∧ b = (r.sessionId == cur) := by
  rw [getUserSessions, List.mem_map]
  constructor
  · rintro ⟨a, ha, heq⟩
    rw [mem_sortByLastActive, List.mem_filter] at ha
    injection heq with h1 h2
    subst h1
    exact ⟨ha.1, ha.2, h2.symm⟩
  · rintro ⟨hmem, hlive, hb⟩
    refine ⟨r, ?_, ?_⟩
    · rw [mem_sortByLastActive, List.mem_filter]
      exact ⟨hmem, hlive⟩
    · rw [hb]

/-- C9 amended: the list-sessions result contains exactly the user's rows
satisfying the query's actual predicate — `expires_at > now` and
(`logged_out_at IS NULL` or `logged_out_at > now`) — each paired with its
computed is-current flag.  On rows whose logout timestamps never exceed the
clock (the only rows the application writes), this coincides with the claimed
`logged_out_at IS NULL AND expires_at > now`. -/
theorem C9_active_sessions (table : List SessRow) (uid : Int) (cur : String)
    (now : Nat) (r : SessRow) (b : Bool) :
    (r, b) ∈ getUserSessions table uid cur now
      ↔ r ∈ table ∧ r.userId = uid ∧ now < r.expiresAt
        ∧ (r.loggedOutAt = none ∨ ∃ t, r.loggedOutAt = some t ∧ now < t)
        ∧ b = (r.sessionId == cur) := by
  rw [getUserSessions_mem]
  rw [sessionRowLive_iff]
  tauto


theorem sessionKey_inj {a b : String} (h : sessionKey a = sessionKey b) : a = b := by
  have hdata : ("session:" ++ a).data = ("session:" ++ b).data := by
    rw [sessionKey, sessionKey] at h
    exact congrArg String.data h
  rw [String.data_append, String.data_append] at hdata
  have hab : a.data = b.data := List.append_cancel_left hdata
  calc a = String.mk a.data := rfl
    _ = String.mk b.data := by rw [hab]
    _ = b := rfl

theorem revokeFold_keep (cur : String) (l : List (SessRow × Bool)) (c : Store)
    (k : String)
    (h : ∀ rb ∈ l, rb.1.sessionId ≠ cur → k ≠ sessionKey rb.1.sessionId) :
    (l.foldl (fun c rb =>
        if rb.1.sessionId ≠ cur then logoutSvc c rb.1.sessionId else c) c) k
      = c k := by
  induction l generalizing c with
  | nil => rfl
  | cons x xs ih =>
    rw [List.foldl_cons]
    by_cases hx : x.1.sessionId ≠ cur
    · rw [if_pos hx, ih _ (fun rb hrb => h rb (List.mem_cons_of_mem _ hrb))]
      have hkx : k ≠ sessionKey x.1.sessionId := h x (List.mem_cons_self _ _) hx
      simp [logoutSvc, deleteSessionCache, redisDel, hkx]
    · rw [if_neg hx, ih _ (fun rb hrb => h rb (List.mem_cons_of_mem _ hrb))]

theorem revokeFold_del (cur : String) (l : List (SessRow × Bool)) (c : Store)
    (k : String)
    (h : ∃ rb ∈ l, rb.1.sessionId ≠ cur ∧ k = sessionKey rb.1.sessionId) :
    (l.foldl (fun c rb =>
        if rb.1.sessionId ≠ cur then logoutSvc c rb.1.sessionId else c) c) k
      = none := by
  induction l generalizing c with
  | nil =>
    obtain ⟨rb, hrb, _⟩ := h
    exact absurd hrb (List.not_mem_nil rb)
  | cons x xs ih =>
    rw [List.foldl_cons]
    obtain ⟨rb, hrb, hne, hkey⟩ := h
    rcases List.mem_cons.mp hrb with heq | htail
    · subst heq
      rw [if_pos hne]
      by_cases hex : ∃ rb2 ∈ xs, rb2.1.sessionId ≠ cur ∧ k = sessionKey rb2.1.sessionId
      · exact ih _ hex
      · push_neg at hex
        rw [revokeFold_keep cur xs _ k hex]
        simp [logoutSvc, deleteSessionCache, redisDel, hkey]
    · by_cases hx : x.1.sessionId ≠ cur
      · rw [if_pos hx]
        exact ih _ ⟨rb, htail, hne, hkey⟩
      · rw [if_neg hx]
        exact ih _ ⟨rb, htail, hne, hkey⟩

/-- C10: `RevokeAllSessions` deletes from the cache exactly the non-current
tokens that appear as active rows in the caller's session metadata; any
cached session of the same user without an active metadata row keeps its
entry (so `getSession` on that token still succeeds), the current token's
entry is untouched, and — under the invariant that cached sessions stored
under a metadata row's token of the caller carry the caller's user id —
no cache entry belonging to another user is touched. -/
theorem C10_revoke_all_frame (cache : Store) (table : List SessRow) (uid : Int)
    (cur : String) (now : Nat) (reqId : String) (hcur : cur ≠ "") :
    (∀ k, (revokeAllSessionsHandler cache table uid cur now reqId).1 k ≠ cache k →
      ∃ r, r ∈ table ∧ sessionRowLive uid now r = true ∧ r.sessionId ≠ cur
        ∧ k = sessionKey r.sessionId)
    ∧ (∀ t, (∀ r ∈ table, sessionRowLive uid now r = true → r.sessionId ≠ t) →
        (revokeAllSessionsHandler cache table uid cur now reqId).1 (sessionKey t)
            = cache (sessionKey t)
        ∧ getSessionSvc ((revokeAllSessionsHandler cache table uid cur now reqId).1) t
            = getSessionSvc cache t)
    ∧ (revokeAllSessionsHandler cache table uid cur now reqId).1 (sessionKey cur)
        = cache (sessionKey cur)
    ∧ ((∀ r ∈ table, sessionRowLive uid now r = true →
          ∀ p, getSessionSvc cache r.sessionId = some p → p.userId = uid) →
        ∀ t p, getSessionSvc cache t = some p → p.userId ≠ uid →
          getSessionSvc ((revokeAllSessionsHandler cache table uid cur now reqId).1) t
            = some p) := by
  have hunfold : (revokeAllSessionsHandler cache table uid cur now reqId).1
      = (getUserSessions table uid cur now).foldl
          (fun c rb => if rb.1.sessionId ≠ cur then logoutSvc c rb.1.sessionId else c)
          cache := by
    simp [revokeAllSessionsHandler, hcur]
  have hframe : ∀ t, (∀ r ∈ table, sessionRowLive uid now r = true → r.sessionId ≠ t) →
      (revokeAllSessionsHandler cache table uid cur now reqId).1 (sessionKey t)
        = cache (sessionKey t) := by
    intro t hnot
    rw [hunfold]
    apply revokeFold_keep
    rintro ⟨r, b⟩ hrb _ hkey
    obtain ⟨hmem, hlive, _⟩ := (getUserSessions_mem table uid cur now r b).mp hrb
    exact hnot r hmem hlive (sessionKey_inj hkey).symm
  refine ⟨?_, ?_, ?_, ?_⟩
  · intro k hk
    by_cases hex : ∃ rb ∈ getUserSessions table uid cur now,
        rb.1.sessionId ≠ cur ∧ k = sessionKey rb.1.sessionId
    · obtain ⟨⟨r, b⟩, hrb, hne, hkey⟩ := hex
      obtain ⟨hmem, hlive, _⟩ := (getUserSessions_mem table uid cur now r b).mp hrb
      exact ⟨r, hmem, hlive, hne, hkey⟩
    · exfalso
      push_neg at hex
      rw [hunfold, revokeFold_keep cur _ cache k hex] at hk
      exact hk rfl
  · intro t hnot
    refine ⟨hframe t hnot, ?_⟩
    rw [getSessionSvc, getSessionSvc, getSessionCache, getSessionCache,
      redisGet, redisGet, hframe t hnot]
  · rw [hunfold]
    apply revokeFold_keep
    rintro ⟨r, b⟩ _ hne hkey
    exact hne (sessionKey_inj hkey).symm
  · intro hown t p hp hpuid
    have hnot : ∀ r ∈ table, sessionRowLive uid now r = true → r.sessionId ≠ t := by
      intro r hmem hlive heq
      have huid : r.userId = uid := ((sessionRowLive_iff uid now r).mp hlive).1
      have := hown r hmem hlive p (by rw [heq]; exact hp)
      exact hpuid this
    have hkeep := hframe t hnot
    rw [getSessionSvc, getSessionCache, redisGet, hkeep]
    exact hp

/-- Witness for C10: with one live foreign-token-free table and a cached
session lacking a metadata row, revoke-all leaves that token resolvable. -/
theorem C10_revoke_all_frame_witness :
    (revokeAllSessionsHandler
        (fun k => if k = "session:ghost"
          then some (encodeSession ⟨7, "bob", "bob@example.com", "user"⟩,
                     defaultSessionTTL)
          else none)
        [⟨1, 7, "cur1", none, none, none, none, 50, 200, 10, none⟩]
        7 "cur1" 100 "rq").1 (sessionKey "ghost")
      = some (encodeSession ⟨7, "bob", "bob@example.com", "user"⟩, defaultSessionTTL) := by
  have h := (C10_revoke_all_frame
      (fun k => if k = "session:ghost"
        then some (encodeSession ⟨7, "bob", "bob@example.com", "user"⟩,
                   defaultSessionTTL)
        else none)
      [⟨1, 7, "cur1", none, none, none, none, 50, 200, 10, none⟩]
      7 "cur1" 100 "rq" (by decide)).2.1 "ghost" (by decide)
  rw [h.1]
  rfl

end OdiOae
